import Mathlib

/-!
Shallow embedding of the authentication and record-access core of
`app/main.py` (a FastAPI service backed by two JSON files), together with
proofs of its specified properties.

Modelling conventions:
* Python dicts keyed by username become association lists with dict
  update semantics (`dictInsert`).
* The bcrypt hash is idealized: a `Hashed` value remembers the plaintext
  it was produced from, and `verify_password` succeeds exactly on that
  plaintext.  This models a collision-free, correct hash scheme.
* A JWT is modelled as its decoded payload (`sub`, `exp`) together with
  the key it was signed with; `jwt_decode` succeeds exactly when the
  presented key equals the signing key and the expiry has not passed
  (PyJWT rejects a token whose `exp` is not in the future).
* `HTTPException` becomes the `HTTPError` structure (status, detail,
  headers); handlers return `Except HTTPError`.  File I/O is replaced by
  explicit state passing of the stored collections.
-/

namespace App

/-- Idealized bcrypt hash: remembers the plaintext it hashes. -/
structure Hashed where
  source : String
deriving DecidableEq, Repr

/-- Models `pwd_context.hash` (bcrypt). -/
def hash_password (plain : String) : Hashed := ⟨plain⟩

/-- Models `verify_password` in `main.py`: `pwd_context.verify(plain, hashed)`. -/
def verify_password (plain : String) (hashed : Hashed) : Bool :=
  plain == hashed.source

/-- A stored user credential record, as built by `create_new_user`. -/
structure UserData where
  username : String
  full_name : String
  email : String
  hashed_password : Hashed
  disabled : Bool
deriving DecidableEq, Repr

/-- The users.json content: a dict from username to user record. -/
abbrev UsersDb := List (String × UserData)

/-- Models `users.get(username)` after `load_users()`: first (unique) binding. -/
def get_user : UsersDb → String → Option UserData
  | [], _ => none
  | (k, v) :: rest, username => if k = username then some v else get_user rest username

/-- Python dict assignment `users[k] = v`: replace the existing binding or append. -/
def dictInsert : UsersDb → String → UserData → UsersDb
  | [], k, v => [(k, v)]
  | (k0, v0) :: rest, k, v =>
      if k0 = k then (k, v) :: rest else (k0, v0) :: dictInsert rest k v

/-- Models `create_user`: `users[user_data['username']] = user_data; save_users(users)`. -/
def create_user (users : UsersDb) (user_data : UserData) : UsersDb :=
  dictInsert users user_data.username user_data

/-- Models `authenticate_user` in `main.py`. -/
def authenticate_user (users : UsersDb) (username password : String) : Option UserData :=
  match get_user users username with
  | none => none
  | some user => if verify_password password user.hashed_password then some user else none

/-- Models FastAPI `HTTPException(status_code, detail, headers)`. -/
structure HTTPError where
  status : Nat
  detail : String
  headers : List (String × String)
deriving DecidableEq, Repr

/-- The 401 raised by `get_current_user`. -/
def credentials_exception : HTTPError :=
  ⟨401, "Could not validate credentials", [("WWW-Authenticate", "Bearer")]⟩

/-- The decoded JWT payload: optional subject claim and expiry (Unix seconds). -/
structure Payload where
  sub : Option String
  exp : Nat
deriving DecidableEq, Repr

/-- A signed token: its payload plus the key it was signed with. -/
structure Token where
  payload : Payload
  key : String
deriving DecidableEq, Repr

/-- Token lifetime constant `TOKEN_EXP` (minutes). -/
def TOKEN_EXP : Nat := 30

/-- Models `create_access_token(data, expires_delta)` at time `now` with the
process signing key; `expires_delta` is in seconds, defaulting to
`TOKEN_EXP` minutes. -/
def create_access_token (sub : Option String) (expires_delta : Option Nat)
    (now : Nat) (key : String) : Token :=
  ⟨⟨sub, now + expires_delta.getD (TOKEN_EXP * 60)⟩, key⟩

/-- Models `jwt.decode(token, SECRET_KEY, algorithms=[ALGORITHM])` at time
`now`: `none` on signature mismatch or expired token (PyJWT raises on
`exp <= now`), otherwise the payload. -/
def jwt_decode (token : Token) (key : String) (now : Nat) : Option Payload :=
  if token.key = key ∧ now < token.payload.exp then some token.payload else none

/-- Models `get_current_user` in `main.py`: decode the token, extract the
`sub` claim and look the user up; any failure raises the same 401. -/
def get_current_user (users : UsersDb) (key : String) (now : Nat) (token : Token) :
    Except HTTPError UserData :=
  match jwt_decode token key now with
  | none => .error credentials_exception
  | some payload =>
    match payload.sub with
    | none => .error credentials_exception
    | some username =>
      match get_user users username with
      | none => .error credentials_exception
      | some user => .ok user

/-- Models the `POST /token` handler `login`: authenticate, then issue a
token with `sub = user["username"]` and a 30 minute expiry. -/
def login (users : UsersDb) (key : String) (now : Nat) (username password : String) :
    Except HTTPError (Token × String) :=
  match authenticate_user users username password with
  | none => .error ⟨400, "Incorrect username or password", [("WWW-Authenticate", "Bearer")]⟩
  | some user =>
      .ok (create_access_token (some user.username) (some (TOKEN_EXP * 60)) now key, "bearer")

/-- Models the `POST /create_user` handler `create_new_user`; returns the
response together with the resulting users.json content (unchanged on the
conflict path, where the exception is raised before any write). -/
def create_new_user (users : UsersDb) (username password full_name email : String) :
    Except HTTPError String × UsersDb :=
  if (get_user users username).isSome then
    (.error ⟨400, "Username already exists", []⟩, users)
  else
    let user_data : UserData :=
      ⟨username, full_name, email, hash_password password, false⟩
    (.ok "User created successfully", create_user users user_data)

/-- A record in data.json: mandatory integer `id`, other fields opaque. -/
structure Item where
  id : Int
  fields : List (String × String)
deriving DecidableEq, Repr

/-- The 404 raised by `get_item` and `delete_item`. -/
def itemNotFound : HTTPError := ⟨404, "Item not found", []⟩

/-- Models the `GET /data/item_id` handler `get_item`: linear scan of the
loaded data for the first record whose `id` matches. -/
def get_item : List Item → Int → Except HTTPError (String × Item)
  | [], _ => .error itemNotFound
  | item :: rest, item_id =>
      if item.id = item_id then .ok ("Item obtained successfully", item)
      else get_item rest item_id

/-- Models the `DELETE /data/item_id` handler `delete_item`: pop the first
record whose `id` matches and save, returning the response together with
the resulting data.json content. -/
def delete_item : List Item → Int → Except HTTPError (String × Item) × List Item
  | [], _ => (.error itemNotFound, [])
  | item :: rest, item_id =>
      if item.id = item_id then (.ok ("Item deleted", item), rest)
      else
        let r := delete_item rest item_id
        (r.1, item :: r.2)

/-- The users dict is keyed by each record's own username, as `create_user`
guarantees. -/
def UsersConsistent (users : UsersDb) : Prop :=
  ∀ p ∈ users, (p.2).username = p.1

/-- The dummy user of `fake_users_db`, with a correctly hashed password. -/
def meUser : UserData :=
  ⟨"Me", "Mr Me", "me@email.com", hash_password "password", false⟩

/-- The dummy user with its `disabled` flag set. -/
def meDisabled : UserData :=
  ⟨"Me", "Mr Me", "me@email.com", hash_password "password", true⟩

/-- A concrete users.json content for witnesses. -/
def demoUsers : UsersDb := [("Me", meUser)]

/-- The sample record from the test suite (payload flattened, opaque to the core). -/
def sampleItem : Item :=
  ⟨2018724576, [("price", "$922,500"), ("address.street", "54 Turbayne Crescent")]⟩

/-- A second record for witnesses. -/
def otherItem : Item := ⟨7, [("price", "$1")]⟩

/-- A concrete data.json content for witnesses. -/
def demoItems : List Item := [sampleItem, otherItem]

/-! ## Helper lemmas -/

/-- A successful user lookup returns a binding that is in the dict. -/
theorem get_user_mem {users : UsersDb} {username : String} {u : UserData}
    (h : get_user users username = some u) : (username, u) ∈ users := by
  induction users with
  | nil => simp [get_user] at h
  | cons p rest ih =>
    obtain ⟨k, v⟩ := p
    by_cases hk : k = username
    · subst hk
      simp [get_user] at h
      subst h
      exact List.mem_cons_self _ _
    · simp [get_user, hk] at h
      exact List.mem_cons_of_mem _ (ih h)

/-- Looking up the key just written returns the value just written. -/
theorem get_user_dictInsert_self (users : UsersDb) (k : String) (v : UserData) :
    get_user (dictInsert users k v) k = some v := by
  induction users with
  | nil => simp [dictInsert, get_user]
  | cons p rest ih =>
    obtain ⟨k0, v0⟩ := p
    by_cases hk : k0 = k
    · simp [dictInsert, hk, get_user]
    · simp [dictInsert, hk, get_user, ih]

/-- Writing one key leaves every other key's lookup unchanged. -/
theorem get_user_dictInsert_other (users : UsersDb) (k other : String) (v : UserData)
    (h : other ≠ k) : get_user (dictInsert users k v) other = get_user users other := by
  induction users with
  | nil => simp [dictInsert, get_user, Ne.symm h]
  | cons p rest ih =>
    obtain ⟨k0, v0⟩ := p
    by_cases hk : k0 = k
    · subst hk
      simp [dictInsert, get_user, Ne.symm h]
    · simp [dictInsert, hk, get_user, ih]

/-- When no record's id matches, the scan of `get_item` ends in the 404. -/
theorem get_item_of_no_match {data : List Item} {item_id : Int}
    (h : ∀ x ∈ data, x.id ≠ item_id) : get_item data item_id = .error itemNotFound := by
  induction data with
  | nil => rfl
  | cons x rest ih =>
    have hx : x.id ≠ item_id := h x (List.mem_cons_self _ _)
    simp only [get_item, if_neg hx]
    exact ih fun y hy => h y (List.mem_cons_of_mem _ hy)

/-- A successful `delete_item` splits the stored sequence at the first
matching record: the records before it do not match, the record removed
matches, and everything else is kept in order. -/
theorem delete_item_ok_decomp {data : List Item} {item_id : Int} {msg : String}
    {r : Item} {rest : List Item}
    (hdel : delete_item data item_id = (.ok (msg, r), rest)) :
    ∃ p q, data = p ++ r :: q ∧ rest = p ++ q ∧
      (∀ x ∈ p, x.id ≠ item_id) ∧ r.id = item_id ∧ msg = "Item deleted" := by
  induction data generalizing rest with
  | nil => simp [delete_item] at hdel
  | cons x tail ih =>
    by_cases hx : x.id = item_id
    · simp only [delete_item, if_pos hx, Prod.mk.injEq, Except.ok.injEq] at hdel
      obtain ⟨⟨hmsg, hr⟩, hrest⟩ := hdel
      exact ⟨[], tail, by simp [hr], by simp [hrest], by simp, hr ▸ hx, hmsg.symm⟩
    · simp only [delete_item, if_neg hx, Prod.mk.injEq] at hdel
      obtain ⟨h1, h2⟩ := hdel
      have hr2 : delete_item tail item_id = (.ok (msg, r), (delete_item tail item_id).2) :=
        Prod.ext h1 rfl
      obtain ⟨p, q, hdata, hrest, hp, hrid, hmsg⟩ := ih hr2
      refine ⟨x :: p, q, by simp [hdata], by simp [← h2, hrest], ?_, hrid, hmsg⟩
      intro y hy
      rcases List.mem_cons.mp hy with hy | hy
      · exact hy ▸ hx
      · exact hp y hy

/-- Under unique ids, the scan of `get_item` started at any stored record's
id ends at that very record. -/
theorem get_item_mem_nodup {data : List Item} {R : Item}
    (hnodup : (data.map Item.id).Nodup) (hmem : R ∈ data) :
    get_item data R.id = .ok ("Item obtained successfully", R) := by
  induction data with
  | nil => simp at hmem
  | cons x rest ih =>
    have hnd : (∀ y ∈ rest, ¬ Item.id y = Item.id x) ∧ (rest.map Item.id).Nodup := by
      simpa using hnodup
    rcases List.mem_cons.mp hmem with hx | hx
    · subst hx; simp [get_item]
    · have hxid : x.id ≠ R.id := fun he => hnd.1 R hx he.symm
      simp only [get_item, if_neg hxid]
      exact ih hnd.2 hx

/-- The scan of `get_item` returns exactly the first matching record. -/
theorem get_item_eq_find {data : List Item} {j : Int} {r : Item}
    (h : data.find? (fun x => x.id == j) = some r) :
    get_item data j = .ok ("Item obtained successfully", r) := by
  induction data with
  | nil => simp at h
  | cons x rest ih =>
    by_cases hx : x.id = j
    · rw [List.find?_cons_of_pos _ (by simpa using hx)] at h
      simp only [Option.some.injEq] at h
      subst h
      simp [get_item, hx]
    · rw [List.find?_cons_of_neg _ (by simpa using hx)] at h
      simp only [get_item, if_neg hx]
      exact ih h

/-! ## Claims -/

/-- Claim C1: for every username/password pair stored in the Credential
Store (i.e. `authenticate_user` succeeds), issuing a token for that user
and then verifying that token yields the original username: the resolved
user is the authenticated user, whose `username` is the one submitted. -/
theorem auth_token_roundtrip (users : UsersDb) (key : String) (now : Nat)
    (username password : String) (user : UserData)
    (hcons : UsersConsistent users)
    (hauth : authenticate_user users username password = some user) :
    get_current_user users key now
      (create_access_token (some user.username) (some (TOKEN_EXP * 60)) now key) = .ok user
    ∧ user.username = username := by
  have hget : get_user users username = some user := by
    unfold authenticate_user at hauth
    cases hg : get_user users username with
    | none => rw [hg] at hauth; simp at hauth
    | some u0 =>
      rw [hg] at hauth
      by_cases hv : verify_password password u0.hashed_password
      · simp [hv] at hauth; subst hauth; rfl
      · simp [hv] at hauth
  have huname : user.username = username := hcons (username, user) (get_user_mem hget)
  have hlt : now < now + TOKEN_EXP * 60 := by
    have hpos : 0 < TOKEN_EXP * 60 := by norm_num [TOKEN_EXP]
    omega
  refine ⟨?_, huname⟩
  simp [get_current_user, jwt_decode, create_access_token, hlt, huname, hget]

/-- Witness for C1 on the dummy user store. -/
theorem auth_token_roundtrip_witness :
    get_current_user demoUsers "secret" 1000
      (create_access_token (some meUser.username) (some (TOKEN_EXP * 60)) 1000 "secret")
        = .ok meUser
    ∧ meUser.username = "Me" :=
  auth_token_roundtrip demoUsers "secret" 1000 "Me" "password" meUser
    (by unfold UsersConsistent; decide) (by rfl)

/-- Claim C2 as stated is false on the code: `authenticate_user` never
reads the `disabled` flag, so a disabled user with the correct password
authenticates successfully instead of being rejected. -/
theorem authenticate_disabled_counterexample :
    meDisabled.disabled = true ∧
    authenticate_user [("Me", meDisabled)] "Me" "password" = some meDisabled :=
  ⟨rfl, rfl⟩

/-- Claim C2, amended: `authenticate_user` ignores the `disabled` flag
entirely; whenever the user is present and the password verifies, it
succeeds, whatever the value of `disabled`. -/
theorem authenticate_ignores_disabled (users : UsersDb) (username password : String)
    (user : UserData)
    (hget : get_user users username = some user)
    (hpw : verify_password password user.hashed_password = true) :
    authenticate_user users username password = some user := by
  simp [authenticate_user, hget, hpw]

/-- Witness for the amended C2: the disabled dummy user authenticates. -/
theorem authenticate_ignores_disabled_witness :
    authenticate_user [("Me", meDisabled)] "Me" "password" = some meDisabled :=
  authenticate_ignores_disabled [("Me", meDisabled)] "Me" "password" meDisabled rfl rfl

/-- Claim C3: a login attempt with an unknown username and a login
attempt with a known username but wrong password return the same
externally observable result — the same 400 with the same detail and
headers — so a caller cannot distinguish the two cases. -/
theorem login_rejection_indistinguishable (users : UsersDb) (key : String) (now : Nat)
    (u1 p1 u2 p2 : String) (user2 : UserData)
    (h1 : get_user users u1 = none)
    (h2 : get_user users u2 = some user2)
    (h2pw : verify_password p2 user2.hashed_password = false) :
    login users key now u1 p1 = login users key now u2 p2 ∧
    login users key now u1 p1 =
      .error ⟨400, "Incorrect username or password", [("WWW-Authenticate", "Bearer")]⟩ := by
  constructor <;> simp [login, authenticate_user, h1, h2, h2pw]

/-- Witness for C3 on the dummy user store. -/
theorem login_rejection_indistinguishable_witness :
    login demoUsers "secret" 0 "Nobody" "pw" = login demoUsers "secret" 0 "Me" "wrong" ∧
    login demoUsers "secret" 0 "Nobody" "pw" =
      .error ⟨400, "Incorrect username or password", [("WWW-Authenticate", "Bearer")]⟩ :=
  login_rejection_indistinguishable demoUsers "secret" 0 "Nobody" "pw" "Me" "wrong"
    meUser rfl rfl rfl

/-- Claim C4: a token whose expiry is in the past at verification time is
rejected with the 401, whether or not its signature (modelled by the
embedded key, here arbitrary) is valid. -/
theorem expired_token_rejected (users : UsersDb) (key : String) (now : Nat) (t : Token)
    (hexp : t.payload.exp < now) :
    get_current_user users key now t = .error credentials_exception := by
  have hdec : jwt_decode t key now = none := by
    unfold jwt_decode
    rw [if_neg]
    rintro ⟨-, hlt⟩
    omega
  simp [get_current_user, hdec]

/-- Witness for C4: an expired token with a valid signature is rejected. -/
theorem expired_token_rejected_witness :
    get_current_user demoUsers "secret" 10 ⟨⟨some "Me", 5⟩, "secret"⟩ =
      .error credentials_exception :=
  expired_token_rejected demoUsers "secret" 10 ⟨⟨some "Me", 5⟩, "secret"⟩ (by decide)

/-- Claim C5: under the documented invariant of unique ids, `get_item` on
a stored record's id returns that record unchanged; in general the scan
returns the first record whose id matches, and the 404 precisely when no
record matches. -/
theorem get_item_roundtrip_first_match (data : List Item) (R : Item) (j : Int)
    (hnodup : (data.map Item.id).Nodup) (hmem : R ∈ data) :
    get_item data R.id = .ok ("Item obtained successfully", R) ∧
    (∀ r, data.find? (fun x => x.id == j) = some r →
      get_item data j = .ok ("Item obtained successfully", r)) ∧
    (data.find? (fun x => x.id == j) = none →
      get_item data j = .error itemNotFound) := by
  refine ⟨get_item_mem_nodup hnodup hmem, fun r hr => get_item_eq_find hr, fun hn => ?_⟩
  exact get_item_of_no_match fun x hx => by simpa using List.find?_eq_none.mp hn x hx

/-- Witness for C5 on the sample record store. -/
theorem get_item_roundtrip_witness :
    get_item demoItems sampleItem.id = .ok ("Item obtained successfully", sampleItem) ∧
    (∀ r, demoItems.find? (fun x => x.id == 5) = some r →
      get_item demoItems 5 = .ok ("Item obtained successfully", r)) ∧
    (demoItems.find? (fun x => x.id == 5) = none →
      get_item demoItems 5 = .error itemNotFound) :=
  get_item_roundtrip_first_match demoItems sampleItem 5 (by decide) (by decide)

/-- Claim C6: under the documented invariant of unique ids, after a
successful `delete_item`, `get_item` on the same id yields the 404 and
the stored sequence is exactly one shorter. -/
theorem delete_then_get_notfound (data : List Item) (item_id : Int) (msg : String)
    (r : Item) (rest : List Item)
    (hnodup : (data.map Item.id).Nodup)
    (hdel : delete_item data item_id = (.ok (msg, r), rest)) :
    get_item rest item_id = .error itemNotFound ∧ rest.length + 1 = data.length := by
  obtain ⟨p, q, hdata, hrest, hp, hrid, -⟩ := delete_item_ok_decomp hdel
  subst hdata
  subst hrest
  constructor
  · apply get_item_of_no_match
    intro x hx
    rcases List.mem_append.mp hx with hx | hx
    · exact hp x hx
    · have hnd : (p.map Item.id ++ Item.id r :: q.map Item.id).Nodup := by
        simpa using hnodup
      have hnotin : r.id ∉ q.map Item.id :=
        (List.nodup_cons.mp (List.nodup_append.mp hnd).2.1).1
      intro he
      exact hnotin (by rw [hrid, ← he]; exact List.mem_map_of_mem Item.id hx)
  · simp only [List.length_append, List.length_cons]
    omega

/-- Witness for C6 on the sample record store. -/
theorem delete_then_get_notfound_witness :
    get_item [otherItem] sampleItem.id = .error itemNotFound ∧
    [otherItem].length + 1 = demoItems.length :=
  delete_then_get_notfound demoItems sampleItem.id "Item deleted" sampleItem [otherItem]
    (by decide) rfl

/-- Claim C7: `delete_item` on an id matching no stored record returns
the 404 and hands back the stored sequence exactly as it was. -/
theorem delete_absent_noop (data : List Item) (item_id : Int)
    (h : ∀ x ∈ data, x.id ≠ item_id) :
    delete_item data item_id = (.error itemNotFound, data) := by
  induction data with
  | nil => rfl
  | cons x rest ih =>
    have hx : x.id ≠ item_id := h x (List.mem_cons_self _ _)
    have ihh := ih fun y hy => h y (List.mem_cons_of_mem _ hy)
    simp [delete_item, if_neg hx, ihh]

/-- Witness for C7 on the sample record store. -/
theorem delete_absent_noop_witness :
    delete_item demoItems 9999999999 = (.error itemNotFound, demoItems) :=
  delete_absent_noop demoItems 9999999999 (by decide)

/-- Claim C8: registering the same username twice has the second call
return the conflict error and leave the store exactly as the first call
left it: the username maps to the first call's record, every other
username is untouched. -/
theorem register_twice_conflict (users : UsersDb) (username p1 f1 e1 p2 f2 e2 : String)
    (hfree : get_user users username = none) :
    ∃ users1 : UsersDb,
      create_new_user users username p1 f1 e1 = (.ok "User created successfully", users1) ∧
      create_new_user users1 username p2 f2 e2 =
        (.error ⟨400, "Username already exists", []⟩, users1) ∧
      get_user users1 username = some ⟨username, f1, e1, hash_password p1, false⟩ ∧
      (∀ other, other ≠ username → get_user users1 other = get_user users other) := by
  refine ⟨create_user users ⟨username, f1, e1, hash_password p1, false⟩, ?_, ?_, ?_, ?_⟩
  · simp [create_new_user, hfree]
  · have hs : get_user (create_user users ⟨username, f1, e1, hash_password p1, false⟩)
        username = some ⟨username, f1, e1, hash_password p1, false⟩ :=
      get_user_dictInsert_self users username _
    simp [create_new_user, hs]
  · exact get_user_dictInsert_self users username _
  · intro other hother
    exact get_user_dictInsert_other users username other _ hother

/-- Witness for C8: registering "alice" twice on an empty store. -/
theorem register_twice_conflict_witness :
    ∃ users1 : UsersDb,
      create_new_user [] "alice" "pw1" "Alice A" "a@b.c" =
        (.ok "User created successfully", users1) ∧
      create_new_user users1 "alice" "pw2" "Alice B" "a2@b.c" =
        (.error ⟨400, "Username already exists", []⟩, users1) ∧
      get_user users1 "alice" = some ⟨"alice", "Alice A", "a@b.c", hash_password "pw1", false⟩ ∧
      (∀ other, other ≠ "alice" → get_user users1 other = get_user [] other) :=
  register_twice_conflict [] "alice" "pw1" "Alice A" "a@b.c" "pw2" "Alice B" "a2@b.c" rfl

/-- Claim C9: when `delete_item` finds a match, the sequence it persists
is the original with exactly the first matching record removed: the
records before it (all non-matching) and after it are kept unchanged and
in order. -/
theorem delete_removes_first_match (data : List Item) (item_id : Int) (msg : String)
    (r : Item) (rest : List Item)
    (hdel : delete_item data item_id = (.ok (msg, r), rest)) :
    ∃ p q, data = p ++ r :: q ∧ rest = p ++ q ∧
      (∀ x ∈ p, x.id ≠ item_id) ∧ r.id = item_id := by
  obtain ⟨p, q, h1, h2, h3, h4, -⟩ := delete_item_ok_decomp hdel
  exact ⟨p, q, h1, h2, h3, h4⟩

/-- Witness for C9: deleting the second sample record. -/
theorem delete_removes_first_match_witness :
    ∃ p q, demoItems = p ++ otherItem :: q ∧ [sampleItem] = p ++ q ∧
      (∀ x ∈ p, x.id ≠ (7 : Int)) ∧ otherItem.id = 7 :=
  delete_removes_first_match demoItems 7 "Item deleted" otherItem [sampleItem] rfl

/-- Claim C10: a token that decodes successfully (valid key, unexpired)
but whose payload has no `sub` claim is rejected by `get_current_user`
with the very same 401 as a token that fails to decode. -/
theorem missing_sub_rejected (users : UsersDb) (key : String) (now : Nat)
    (t tinv : Token)
    (hkey : t.key = key) (hexp : now < t.payload.exp) (hsub : t.payload.sub = none)
    (hinv : jwt_decode tinv key now = none) :
    get_current_user users key now t = .error credentials_exception ∧
    get_current_user users key now tinv = .error credentials_exception ∧
    get_current_user users key now t = get_current_user users key now tinv := by
  have hdec : jwt_decode t key now = some t.payload := by
    simp [jwt_decode, hkey, hexp]
  have e1 : get_current_user users key now t = .error credentials_exception := by
    simp [get_current_user, hdec, hsub]
  have e2 : get_current_user users key now tinv = .error credentials_exception := by
    simp [get_current_user, hinv]
  exact ⟨e1, e2, e1.trans e2.symm⟩

/-- Witness for C10: a sub-less valid token and a wrongly-signed token. -/
theorem missing_sub_rejected_witness :
    get_current_user demoUsers "secret" 10 ⟨⟨none, 100⟩, "secret"⟩ =
      .error credentials_exception ∧
    get_current_user demoUsers "secret" 10 ⟨⟨some "Me", 100⟩, "other"⟩ =
      .error credentials_exception ∧
    get_current_user demoUsers "secret" 10 ⟨⟨none, 100⟩, "secret"⟩ =
      get_current_user demoUsers "secret" 10 ⟨⟨some "Me", 100⟩, "other"⟩ :=
  missing_sub_rejected demoUsers "secret" 10 ⟨⟨none, 100⟩, "secret"⟩
    ⟨⟨some "Me", 100⟩, "other"⟩ rfl (by decide) rfl (by decide)

end App
